import Mathlib

/-!
A shallow embedding in Lean of the watchman client PDU layer
(`watchman/rust/watchman_client/src/pdu.rs`): the wire value model, the
clock / sync-timeout types with their conversions, the scalar codecs
(`FileType`, `ContentSha1Hex`), the untagged decode policies for
`Clock` / `ClockSpec`, and the serde-derived serializers of the request
parameter structs, together with theorems about them.
-/

namespace Watchman

/-- The self-describing wire value (`serde_bser::value::Value`) restricted to
the kinds the PDU layer traffics in: strings, integers, booleans, null,
ordered sequences and string-keyed maps.  A serialized struct is modelled as
the ordered list of emitted key/value pairs. -/
inductive Value where
  | null
  | bool (b : Bool)
  | integer (n : Int)
  | utf8String (s : String)
  | array (items : List Value)
  | object (fields : List (String × Value))
deriving Repr

/-- `std::time::Duration`: seconds (`u64`) and subsecond nanoseconds (`u32`,
kept below 10^9 by the Rust constructors). -/
structure Duration where
  secs : Nat
  nanos : Nat
deriving Repr, DecidableEq

/-- `Duration::as_millis`: the whole number of milliseconds (`u128`, which
cannot overflow from a `u64` second count). -/
def Duration.as_millis (d : Duration) : Nat :=
  d.secs * 1000 + d.nanos / 1000000

/-- The `as i64` wrapping cast applied to a `u128`: keep the low 64 bits and
reinterpret them in two's complement. -/
def i64_of_u128 (n : Nat) : Int :=
  let m : Nat := n % 2 ^ 64
  if m < 2 ^ 63 then (m : Int) else (m : Int) - 2 ^ 64

/-- `SyncTimeout` from pdu.rs. -/
inductive SyncTimeout where
  /-- Use the default cookie synchronization timeout. -/
  | Default
  /-- Disable the use of a sync cookie. -/
  | DisableCookie
  /-- An explicit timeout for the sync cookie. -/
  | Duration (d : Watchman.Duration)
deriving Repr, DecidableEq

/-- `SyncTimeout::is_default`. -/
def SyncTimeout.is_default : SyncTimeout → Bool
  | .Default => true
  | _ => false

/-- `SyncTimeout::is_disabled`. -/
def SyncTimeout.is_disabled : SyncTimeout → Bool
  | .DisableCookie => true
  | _ => false

/-- `impl From<std::time::Duration> for SyncTimeout`: a duration whose whole
millisecond count is zero becomes `DisableCookie`, otherwise `Duration`. -/
def SyncTimeout.ofDuration (duration : Watchman.Duration) : SyncTimeout :=
  let millis := duration.as_millis
  if millis = 0 then .DisableCookie else .Duration duration

/-- `impl From<SyncTimeout> for i64`: `Default` is the server's one-minute
default expressed in milliseconds, `DisableCookie` is 0, and a concrete
duration is `d.as_millis() as i64`. -/
def SyncTimeout.toI64 : SyncTimeout → Int
  | .Default => 60000
  | .DisableCookie => 0
  | .Duration d => i64_of_u128 d.as_millis

/-- `SettleDurationMs`, serialized `into = "i64"` as `as_millis() as i64`. -/
structure SettleDurationMs where
  duration : Duration
deriving Repr, DecidableEq

/-- `impl From<SettleDurationMs> for i64`. -/
def SettleDurationMs.toI64 (s : SettleDurationMs) : Int :=
  i64_of_u128 s.duration.as_millis

/-- The outcome of running a total Rust conversion that may `panic`: either a
normal value, or an unrecoverable process abort carrying the panic message. -/
inductive DecodeOutcome (α : Type) where
  | panics (msg : String)
  | ok (value : α)
deriving Repr, DecidableEq

/-- `FileType` from pdu.rs: the closed enumeration of file kinds. -/
inductive FileType where
  | BlockSpecial
  | CharSpecial
  | Directory
  | Regular
  | Fifo
  | Symlink
  | Socket
  | SolarisDoor
  | Unknown
deriving Repr, DecidableEq

/-- `impl From<String> for FileType`: the single-character code table; any
other string hits the `panic` arm. -/
def FileType.from_string (s : String) : DecodeOutcome FileType :=
  match s with
  | "b" => .ok .BlockSpecial
  | "c" => .ok .CharSpecial
  | "d" => .ok .Directory
  | "f" => .ok .Regular
  | "p" => .ok .Fifo
  | "l" => .ok .Symlink
  | "s" => .ok .Socket
  | "D" => .ok .SolarisDoor
  | "?" => .ok .Unknown
  | unknown => .panics ("Watchman Server returned impossible file type " ++ unknown)

/-- `impl From<FileType> for String`: one character per kind. -/
def FileType.to_string : FileType → String
  | .BlockSpecial => "b"
  | .CharSpecial => "c"
  | .Directory => "d"
  | .Regular => "f"
  | .Fifo => "p"
  | .Symlink => "l"
  | .Socket => "s"
  | .SolarisDoor => "D"
  | .Unknown => "?"

/-- `ContentSha1Hex` from pdu.rs. -/
inductive ContentSha1Hex where
  | Hash (digest : String)
  | Error (error : String)
  | None
deriving Repr, DecidableEq

/-- First untagged attempt for `ContentSha1Hex`: a plain string is the
`Hash` variant. -/
def tryHash : Value → Option ContentSha1Hex
  | .utf8String s => some (.Hash s)
  | _ => none

/-- Second untagged attempt for `ContentSha1Hex`: a string-keyed map whose
`error` field is a string is the `Error` variant (extra keys are ignored,
as serde does for struct variants). -/
def tryError : Value → Option ContentSha1Hex
  | .object fields =>
    match List.lookup "error" fields with
    | some (.utf8String e) => some (.Error e)
    | _ => none
  | _ => none

/-- Third untagged attempt for `ContentSha1Hex`: null decodes the unit
variant `None`. -/
def tryNone : Value → Option ContentSha1Hex
  | .null => some .None
  | _ => none

/-- The `#[serde(untagged)]` decoder for `ContentSha1Hex`: the three shapes
are attempted in declaration order, first match wins. -/
def decodeContentSha1Hex (v : Value) : Option ContentSha1Hex :=
  (tryHash v).orElse fun _ => (tryError v).orElse fun _ => tryNone v

/-- `ClockSpec` from pdu.rs. -/
inductive ClockSpec where
  | StringClock (s : String)
  | UnixTimestamp (n : Int)
deriving Repr, DecidableEq

/-- `impl From<ClockSpec> for Value` (also the untagged serialization):
a string clock stays a string, a timestamp stays an integer. -/
def ClockSpec.toValue : ClockSpec → Value
  | .StringClock st => .utf8String st
  | .UnixTimestamp ts => .integer ts

/-- The `#[serde(untagged)]` decoder for `ClockSpec`: attempt the string
shape first, then the signed-integer shape. -/
def decodeClockSpec (v : Value) : Option ClockSpec :=
  (match v with
    | .utf8String s => some (ClockSpec.StringClock s)
    | _ => none).orElse fun _ =>
  match v with
  | .integer n => some (ClockSpec.UnixTimestamp n)
  | _ => none

/-- `SavedStateClockData` from pdu.rs. -/
structure SavedStateClockData where
  storage : Option String
  commit : Option String
  config : Option Value

/-- `ScmAwareClockData` from pdu.rs. -/
structure ScmAwareClockData where
  mergebase : Option String
  mergebase_with : Option String
  saved_state : Option SavedStateClockData

/-- `FatClockData` from pdu.rs: a required `clock` field plus optional
`scm` metadata. -/
structure FatClockData where
  clock : ClockSpec
  scm : Option ScmAwareClockData

/-- `Clock` from pdu.rs, `#[serde(untagged)]` over the two shapes. -/
inductive Clock where
  | Spec (spec : ClockSpec)
  | ScmAware (data : FatClockData)

/-- Decoding an optional struct field: a missing key or an explicit null is
`none`; a present value must decode with `dec`. -/
def decodeOptField (fields : List (String × Value)) (key : String)
    (dec : Value → Option α) : Option (Option α) :=
  match List.lookup key fields with
  | Option.none => some none
  | some .null => some none
  | some v => (dec v).map some

/-- Decoder for `SavedStateClockData`: a string-keyed map with optional
`storage`, `commit-id` and `config` fields. -/
def decodeSavedStateClockData : Value → Option SavedStateClockData
  | .object fields => do
    let storage ← decodeOptField fields "storage" fun v =>
      match v with | .utf8String s => some s | _ => none
    let commit ← decodeOptField fields "commit-id" fun v =>
      match v with | .utf8String s => some s | _ => none
    let config ← decodeOptField fields "config" some
    some ⟨storage, commit, config⟩
  | _ => none

/-- Decoder for `ScmAwareClockData`: a string-keyed map with optional
`mergebase`, `mergebase-with` and `saved-state` fields. -/
def decodeScmAwareClockData : Value → Option ScmAwareClockData
  | .object fields => do
    let mergebase ← decodeOptField fields "mergebase" fun v =>
      match v with | .utf8String s => some s | _ => none
    let mergebase_with ← decodeOptField fields "mergebase-with" fun v =>
      match v with | .utf8String s => some s | _ => none
    let saved_state ← decodeOptField fields "saved-state" decodeSavedStateClockData
    some ⟨mergebase, mergebase_with, saved_state⟩
  | _ => none

/-- Decoder for `FatClockData`: a string-keyed map that must contain a
`clock` field decoding as a `ClockSpec`, with optional `scm` metadata. -/
def decodeFatClockData : Value → Option FatClockData
  | .object fields => do
    let clockValue ← List.lookup "clock" fields
    let clock ← decodeClockSpec clockValue
    let scm ← decodeOptField fields "scm" decodeScmAwareClockData
    some ⟨clock, scm⟩
  | _ => none

/-- The `#[serde(untagged)]` decoder for `Clock`: attempt the plain
`ClockSpec` shape first, then the source-control-aware map shape. -/
def decodeClock (v : Value) : Option Clock :=
  ((decodeClockSpec v).map Clock.Spec).orElse fun _ =>
    (decodeFatClockData v).map Clock.ScmAware

/-- One optional struct field as serde serializes it under
`skip_serializing_if = "Option::is_none"`: nothing when `none`, a single
key/value pair when present. -/
def optField (n : String) (o : Option α) (enc : α → Value) :
    List (String × Value) :=
  match o with
  | Option.none => []
  | some a => [(n, enc a)]

/-- One boolean struct field as serde serializes it under
`skip_serializing_if = "is_false"`: nothing when false, the key with the
boolean value when true. -/
def boolField (n : String) (b : Bool) : List (String × Value) :=
  if b then [(n, .bool true)] else []

/-- Serializer of `SavedStateClockData` (serde derive with renames and
omit-if-none fields). -/
def serializeSavedStateClockData (s : SavedStateClockData) : Value :=
  .object (optField "storage" s.storage .utf8String
    ++ optField "commit-id" s.commit .utf8String
    ++ optField "config" s.config id)

/-- Serializer of `ScmAwareClockData` (serde derive with renames and
omit-if-none fields). -/
def serializeScmAwareClockData (s : ScmAwareClockData) : Value :=
  .object (optField "mergebase" s.mergebase .utf8String
    ++ optField "mergebase-with" s.mergebase_with .utf8String
    ++ optField "saved-state" s.saved_state serializeSavedStateClockData)

/-- Serializer of `FatClockData`: the `clock` field always, the `scm`
field only when present. -/
def serializeFatClockData (f : FatClockData) : Value :=
  .object ([("clock", f.clock.toValue)]
    ++ optField "scm" f.scm serializeScmAwareClockData)

/-- Untagged serializer of `Clock`: each variant serializes as its
content. -/
def serializeClock : Clock → Value
  | .Spec s => s.toValue
  | .ScmAware f => serializeFatClockData f

/-- `ClockRequestParams` from pdu.rs. -/
structure ClockRequestParams where
  sync_timeout : SyncTimeout

/-- Serializer of `ClockRequestParams`: the `sync_timeout` field is skipped
when `SyncTimeout::is_disabled`. -/
def serializeClockRequestParams (p : ClockRequestParams) :
    List (String × Value) :=
  if p.sync_timeout.is_disabled then []
  else [("sync_timeout", .integer p.sync_timeout.toI64)]

/-- `StateEnterLeaveParams` from pdu.rs. -/
structure StateEnterLeaveParams where
  name : String
  metadata : Option Value
  sync_timeout : SyncTimeout

/-- Serializer of `StateEnterLeaveParams`: `name` always, `metadata` when
present, and `sync_timeout` skipped when `SyncTimeout::is_default`. -/
def serializeStateEnterLeaveParams (p : StateEnterLeaveParams) :
    List (String × Value) :=
  [("name", .utf8String p.name)]
    ++ optField "metadata" p.metadata id
    ++ (if p.sync_timeout.is_default then []
        else [("sync_timeout", .integer p.sync_timeout.toI64)])

/-- `TriggerStdinConfig` from pdu.rs. -/
inductive TriggerStdinConfig where
  | DevNull
  | FieldNames (names : List String)
  | NamePerLine

/-- `TriggerStdinConfig::serialize`, the custom `serialize_with` function
over the optional `stdin` field of a `TriggerRequest`. -/
def TriggerStdinConfig.serialize : Option TriggerStdinConfig → Value
  | some .DevNull => .utf8String "/dev/null"
  | some (.FieldNames names) => .array (names.map .utf8String)
  | some .NamePerLine => .utf8String "NAME_PER_LINE"
  | Option.none => .null

/-- Modelled from the spec: the filter expression type (`crate::expr::Expr`,
whose module is not part of this excerpt) is opaque to the PDU layer beyond
"serializes as a nested value", so it is embedded as the wire value it
serializes to. -/
structure Expr where
  value : Value

/-- Serializer of the opaque filter expression. -/
def serializeExpr (e : Expr) : Value :=
  e.value

/-- `PathGeneratorElement` from pdu.rs, `#[serde(untagged)]`. -/
inductive PathGeneratorElement where
  | RecursivePath (path : String)
  | ConstrainedDepth (path : String) (depth : Int)

/-- Untagged serializer of `PathGeneratorElement`: a bare path string, or a
map with `path` and `depth` fields. -/
def serializePathGeneratorElement : PathGeneratorElement → Value
  | .RecursivePath p => .utf8String p
  | .ConstrainedDepth p depth =>
    .object [("path", .utf8String p), ("depth", .integer depth)]

/-- `QueryRequestCommon` from pdu.rs (paths embedded as strings). -/
structure QueryRequestCommon where
  glob : Option (List String)
  glob_noescape : Bool
  glob_includedotfiles : Bool
  path : Option (List PathGeneratorElement)
  suffix : Option (List String)
  since : Option Clock
  relative_root : Option String
  expression : Option Expr
  fields : List String
  empty_on_fresh_instance : Bool
  omit_changed_files : Bool
  fail_if_no_saved_state : Bool
  case_sensitive : Bool
  sync_timeout : SyncTimeout
  settle_period : Option SettleDurationMs
  settle_timeout : Option SettleDurationMs
  dedup_results : Bool
  lock_timeout : Option Int
  request_id : Option String
  always_include_directories : Bool

/-- Serde-derived serializer of `QueryRequestCommon`: fields are emitted in
declaration order, each under its skip rule from pdu.rs (`Option::is_none`,
`is_false`, or `SyncTimeout::is_default` for `sync_timeout`; `fields` is
always present). -/
def serializeQueryRequestCommon (q : QueryRequestCommon) :
    List (String × Value) :=
  optField "glob" q.glob (fun l => .array (l.map .utf8String))
    ++ boolField "glob_noescape" q.glob_noescape
    ++ boolField "glob_includedotfiles" q.glob_includedotfiles
    ++ optField "path" q.path (fun l => .array (l.map serializePathGeneratorElement))
    ++ optField "suffix" q.suffix (fun l => .array (l.map .utf8String))
    ++ optField "since" q.since serializeClock
    ++ optField "relative_root" q.relative_root .utf8String
    ++ optField "expression" q.expression serializeExpr
    ++ [("fields", .array (q.fields.map .utf8String))]
    ++ boolField "empty_on_fresh_instance" q.empty_on_fresh_instance
    ++ boolField "omit_changed_files" q.omit_changed_files
    ++ boolField "fail_if_no_saved_state" q.fail_if_no_saved_state
    ++ boolField "case_sensitive" q.case_sensitive
    ++ (if q.sync_timeout.is_default then []
        else [("sync_timeout", .integer q.sync_timeout.toI64)])
    ++ optField "settle_period" q.settle_period (fun s => .integer s.toI64)
    ++ optField "settle_timeout" q.settle_timeout (fun s => .integer s.toI64)
    ++ boolField "dedup_results" q.dedup_results
    ++ optField "lock_timeout" q.lock_timeout .integer
    ++ optField "request_id" q.request_id .utf8String
    ++ boolField "always_include_directories" q.always_include_directories

section LookupLemmas

variable {β : Type}

@[simp]
theorem lookup_nil_eq_none (k : String) :
    List.lookup k ([] : List (String × β)) = none :=
  rfl

@[simp]
theorem lookup_cons_of_beq_false {k n : String} {v : β} {l : List (String × β)}
    (h : (k == n) = false) :
    List.lookup k ((n, v) :: l) = List.lookup k l := by
  simp [List.lookup, h]

@[simp]
theorem lookup_cons_self {k : String} {v : β} {l : List (String × β)} :
    List.lookup k ((k, v) :: l) = some v := by
  simp [List.lookup]

@[simp]
theorem lookup_append_of_none {k : String} {l₁ l₂ : List (String × β)}
    (h : List.lookup k l₁ = none) :
    List.lookup k (l₁ ++ l₂) = List.lookup k l₂ := by
  induction l₁ with
  | nil => simp
  | cons a t ih =>
    obtain ⟨n, v⟩ := a
    rw [List.cons_append]
    cases hkn : (k == n) with
    | true => exact absurd h (by simp [List.lookup, hkn])
    | false =>
      simp only [List.lookup, hkn] at h ⊢
      exact ih h

@[simp]
theorem lookup_optField_of_beq_false {α : Type} {k n : String} (o : Option α)
    (enc : α → Value) (h : (k == n) = false) :
    List.lookup k (optField n o enc) = none := by
  cases o <;> simp [optField, h]

@[simp]
theorem lookup_boolField_of_beq_false {k n : String} (b : Bool)
    (h : (k == n) = false) :
    List.lookup k (boolField n b) = none := by
  cases b <;> simp [boolField, h]

end LookupLemmas

/-- The `sync_timeout` key of a serialized `QueryRequestCommon`, for any
request value: absent exactly when the variant is `Default`, otherwise the
`i64` encoding of the variant. -/
theorem lookup_sync_timeout_query (q : QueryRequestCommon) :
    List.lookup "sync_timeout" (serializeQueryRequestCommon q)
      = if q.sync_timeout.is_default then none
        else some (.integer q.sync_timeout.toI64) := by
  unfold serializeQueryRequestCommon
  cases hd : q.sync_timeout.is_default <;> simp [hd]

/-- The `sync_timeout` key of a serialized `ClockRequestParams`: absent
exactly when the variant is `DisableCookie`, otherwise the `i64` encoding. -/
theorem lookup_sync_timeout_clock_params (p : ClockRequestParams) :
    List.lookup "sync_timeout" (serializeClockRequestParams p)
      = if p.sync_timeout.is_disabled then none
        else some (.integer p.sync_timeout.toI64) := by
  unfold serializeClockRequestParams
  cases hd : p.sync_timeout.is_disabled <;> simp [hd]

/-- The `sync_timeout` key of a serialized `StateEnterLeaveParams`: absent
exactly when the variant is `Default`, otherwise the `i64` encoding. -/
theorem lookup_sync_timeout_state_params (p : StateEnterLeaveParams) :
    List.lookup "sync_timeout" (serializeStateEnterLeaveParams p)
      = if p.sync_timeout.is_default then none
        else some (.integer p.sync_timeout.toI64) := by
  unfold serializeStateEnterLeaveParams
  cases hd : p.sync_timeout.is_default <;> simp [hd]

theorem SyncTimeout.is_disabled_iff (st : SyncTimeout) :
    st.is_disabled = true ↔ st = .DisableCookie := by
  cases st <;> simp [SyncTimeout.is_disabled]

theorem SyncTimeout.is_default_iff (st : SyncTimeout) :
    st.is_default = true ↔ st = .Default := by
  cases st <;> simp [SyncTimeout.is_default]

/-- C1 counterexample: in a state-enter/state-leave request the
`sync_timeout` field is NOT omitted for `DisableCookie` (it is emitted
as the integer 0), and it IS omitted for `Default`, contradicting the
claim that both request kinds omit exactly on `DisableCookie`. -/
theorem state_sync_timeout_omission_counterexample :
    List.lookup "sync_timeout"
        (serializeStateEnterLeaveParams ⟨"mystate", none, .DisableCookie⟩)
      = some (.integer 0)
  ∧ List.lookup "sync_timeout"
        (serializeStateEnterLeaveParams ⟨"mystate", none, .Default⟩)
      = none :=
  ⟨rfl, rfl⟩

/-- C1 (amended): the `sync_timeout` field of a clock request
(`ClockRequestParams`) is omitted exactly when the variant is
`DisableCookie`, while the `sync_timeout` field of a state-enter/state-leave
request (`StateEnterLeaveParams`) is omitted exactly when the variant is
`Default`; whenever present the field holds the variant's `i64` encoding. -/
theorem sync_timeout_omission_by_context :
    (∀ p : ClockRequestParams,
      (List.lookup "sync_timeout" (serializeClockRequestParams p) = none
        ↔ p.sync_timeout = .DisableCookie)
      ∧ (p.sync_timeout ≠ .DisableCookie →
          List.lookup "sync_timeout" (serializeClockRequestParams p)
            = some (.integer p.sync_timeout.toI64)))
  ∧ (∀ p : StateEnterLeaveParams,
      (List.lookup "sync_timeout" (serializeStateEnterLeaveParams p) = none
        ↔ p.sync_timeout = .Default)
      ∧ (p.sync_timeout ≠ .Default →
          List.lookup "sync_timeout" (serializeStateEnterLeaveParams p)
            = some (.integer p.sync_timeout.toI64))) := by
  constructor
  · intro p
    rw [lookup_sync_timeout_clock_params]
    cases hst : p.sync_timeout <;>
      simp [hst, SyncTimeout.is_disabled]
  · intro p
    rw [lookup_sync_timeout_state_params]
    cases hst : p.sync_timeout <;>
      simp [hst, SyncTimeout.is_default]

theorem sync_timeout_omission_by_context_witness :
    List.lookup "sync_timeout" (serializeClockRequestParams ⟨.Default⟩)
      = some (.integer 60000)
  ∧ List.lookup "sync_timeout"
        (serializeStateEnterLeaveParams ⟨"mystate", none, .DisableCookie⟩)
      = some (.integer 0) :=
  ⟨(sync_timeout_omission_by_context.1 ⟨.Default⟩).2 (by simp),
   (sync_timeout_omission_by_context.2
      ⟨"mystate", none, .DisableCookie⟩).2 (by simp)⟩

/-- C2: at the failing input `"z"` (any string outside the nine known
single-character codes), the source decoder does not return a reportable
failure: it takes the `panic` arm and aborts the process with this
message. -/
theorem filetype_unknown_code_panics :
    FileType.from_string "z"
      = .panics "Watchman Server returned impossible file type z" := by
  decide

/-- C3: decoding a bare string or a bare integer as a `Clock` always
yields the plain `Spec` variant, and the `ScmAware` variant is produced
only from a string-keyed map that contains a `clock` key. -/
theorem clock_untagged_decode_shapes :
    (∀ s, decodeClock (.utf8String s) = some (.Spec (.StringClock s)))
  ∧ (∀ n, decodeClock (.integer n) = some (.Spec (.UnixTimestamp n)))
  ∧ (∀ v c, decodeClock v = some (.ScmAware c) →
      ∃ fields, v = .object fields ∧ (List.lookup "clock" fields).isSome) := by
  refine ⟨fun s => rfl, fun n => rfl, fun v c h => ?_⟩
  cases v with
  | object fields =>
    refine ⟨fields, rfl, ?_⟩
    cases hcv : List.lookup "clock" fields with
    | none =>
      simp [decodeClock, decodeClockSpec, decodeFatClockData, hcv,
        Option.orElse] at h
    | some cv => simp [hcv]
  | null => simp [decodeClock, decodeClockSpec, decodeFatClockData,
      Option.orElse] at h
  | bool b => simp [decodeClock, decodeClockSpec, decodeFatClockData,
      Option.orElse] at h
  | integer n => simp [decodeClock, decodeClockSpec, decodeFatClockData,
      Option.orElse] at h
  | utf8String s => simp [decodeClock, decodeClockSpec, decodeFatClockData,
      Option.orElse] at h
  | array items => simp [decodeClock, decodeClockSpec, decodeFatClockData,
      Option.orElse] at h

theorem clock_untagged_decode_shapes_witness :
    ∃ fields, Value.object [("clock", Value.utf8String "c:123:45")]
        = .object fields
      ∧ (List.lookup "clock" fields).isSome :=
  clock_untagged_decode_shapes.2.2 _ ⟨.StringClock "c:123:45", none⟩ rfl

/-- C4: the serialized map of a `QueryRequestCommon` has no `sync_timeout`
key exactly when the field is the `Default` variant; for `DisableCookie`
the key is present with 0 and for `Duration` with the duration's `i64`
millisecond encoding. -/
theorem query_sync_timeout_field (q : QueryRequestCommon) :
    (List.lookup "sync_timeout" (serializeQueryRequestCommon q) = none
      ↔ q.sync_timeout = .Default)
  ∧ (q.sync_timeout = .DisableCookie →
      List.lookup "sync_timeout" (serializeQueryRequestCommon q)
        = some (.integer 0))
  ∧ (∀ d, q.sync_timeout = .Duration d →
      List.lookup "sync_timeout" (serializeQueryRequestCommon q)
        = some (.integer (SyncTimeout.toI64 (.Duration d)))) := by
  rw [lookup_sync_timeout_query]
  cases hst : q.sync_timeout <;>
    simp [hst, SyncTimeout.is_default, SyncTimeout.toI64]

theorem query_sync_timeout_field_witness :
    List.lookup "sync_timeout"
        (serializeQueryRequestCommon
          ⟨none, false, false, none, none, none, none, none, ["name"],
           false, false, false, false, .DisableCookie, none, none, false,
           none, none, false⟩)
      = some (.integer 0) :=
  (query_sync_timeout_field _).2.1 rfl

/-- C5 counterexample: for the (Rust-constructible) duration of 2^63
seconds, the whole-millisecond count does not fit in a signed 64-bit
integer, and the `as i64` wrapping cast emits 0 instead of the
millisecond count, refuting "Duration(d) encodes as the whole number of
milliseconds of d, for every duration d". -/
theorem sync_timeout_millis_overflow_counterexample :
    SyncTimeout.toI64 (.Duration ⟨9223372036854775808, 0⟩)
      ≠ ((Duration.mk 9223372036854775808 0).as_millis : Int) := by
  decide

/-- C5 (amended): whenever a `SyncTimeout` is emitted on the wire,
`Default` encodes as 60000, `DisableCookie` as 0, and `Duration d` as the
whole number of milliseconds of `d` whenever that count fits in a signed
64-bit integer (counts of 2^63 or more are truncated by the `as i64`
wrapping cast). -/
theorem sync_timeout_wire_encoding (st : SyncTimeout) :
    (st = .Default → st.toI64 = 60000)
  ∧ (st = .DisableCookie → st.toI64 = 0)
  ∧ (∀ d, st = .Duration d → d.as_millis < 2 ^ 63 →
      st.toI64 = (d.as_millis : Int)) := by
  refine ⟨fun h => by rw [h]; rfl, fun h => by rw [h]; rfl,
    fun d h hlt => ?_⟩
  rw [h]
  have h64 : d.as_millis % 2 ^ 64 = d.as_millis :=
    Nat.mod_eq_of_lt (lt_trans hlt (by norm_num))
  show i64_of_u128 d.as_millis = (d.as_millis : Int)
  unfold i64_of_u128
  simp only [h64]
  rw [if_pos hlt]

theorem sync_timeout_wire_encoding_witness :
    SyncTimeout.toI64 (.Duration ⟨1, 500000⟩)
      = ((Duration.mk 1 500000).as_millis : Int) :=
  (sync_timeout_wire_encoding _).2.2 _ rfl (by decide)

/-- C6: decoding `ContentSha1Hex` sends a plain string to `Hash`, a
string-keyed map with an `error` string field to `Error` with that
message, and null to `None`; every other shape fails to decode, the three
shapes being attempted in that order. -/
theorem content_sha1hex_decode_shapes :
    (∀ s, decodeContentSha1Hex (.utf8String s) = some (.Hash s))
  ∧ (∀ fields e, List.lookup "error" fields = some (.utf8String e) →
      decodeContentSha1Hex (.object fields) = some (.Error e))
  ∧ decodeContentSha1Hex .null = some .None
  ∧ (∀ v, decodeContentSha1Hex v = none ↔
      (∀ s, v ≠ .utf8String s) ∧ v ≠ .null ∧
      (∀ fields, v = .object fields →
        ∀ e, List.lookup "error" fields ≠ some (.utf8String e))) := by
  refine ⟨fun s => rfl, fun fields e h => ?_, rfl, fun v => ?_⟩
  · simp [decodeContentSha1Hex, tryHash, tryError, h, Option.orElse]
  · cases v with
    | object fields =>
      cases hlv : List.lookup "error" fields with
      | none =>
        simp [decodeContentSha1Hex, tryHash, tryError, tryNone, hlv,
          Option.orElse]
      | some val =>
        cases val <;>
          simp [decodeContentSha1Hex, tryHash, tryError, tryNone, hlv,
            Option.orElse]
    | null => simp [decodeContentSha1Hex, tryHash, tryError, tryNone,
        Option.orElse]
    | bool b => simp [decodeContentSha1Hex, tryHash, tryError, tryNone,
        Option.orElse]
    | integer n => simp [decodeContentSha1Hex, tryHash, tryError, tryNone,
        Option.orElse]
    | utf8String s => simp [decodeContentSha1Hex, tryHash, tryError, tryNone,
        Option.orElse]
    | array items => simp [decodeContentSha1Hex, tryHash, tryError, tryNone,
        Option.orElse]

theorem content_sha1hex_decode_shapes_witness :
    decodeContentSha1Hex (.object [("error", .utf8String "out of cookies")])
      = some (.Error "out of cookies") :=
  content_sha1hex_decode_shapes.2.1 _ "out of cookies" rfl

/-- C7: each of the nine `FileType` kinds encodes to exactly one
character, distinct per kind, and decoding that character yields the
original kind back. -/
theorem filetype_roundtrip :
    (∀ t : FileType, (FileType.to_string t).length = 1)
  ∧ (∀ t₁ t₂ : FileType,
      FileType.to_string t₁ = FileType.to_string t₂ → t₁ = t₂)
  ∧ (∀ t : FileType,
      FileType.from_string (FileType.to_string t) = .ok t) := by
  refine ⟨fun t => ?_, fun t₁ t₂ h => ?_, fun t => ?_⟩
  · cases t <;> rfl
  · cases t₁ <;> cases t₂ <;> first | rfl | exact absurd h (by decide)
  · cases t <;> rfl

theorem filetype_roundtrip_witness :
    FileType.Directory = FileType.Directory :=
  filetype_roundtrip.2.1 .Directory .Directory rfl

/-- C8: a `ClockSpec` encodes without changing its representation kind
(string stays string, integer stays integer), and for every string and
every signed 64-bit integer the encode/decode round trip returns the same
variant with the same value. -/
theorem clockspec_roundtrip :
    (∀ s, ClockSpec.toValue (.StringClock s) = .utf8String s
      ∧ decodeClockSpec (ClockSpec.toValue (.StringClock s))
          = some (.StringClock s))
  ∧ (∀ n : Int, -(2 ^ 63) ≤ n → n < 2 ^ 63 →
      ClockSpec.toValue (.UnixTimestamp n) = .integer n
      ∧ decodeClockSpec (ClockSpec.toValue (.UnixTimestamp n))
          = some (.UnixTimestamp n)) :=
  ⟨fun _ => ⟨rfl, rfl⟩, fun _ _ _ => ⟨rfl, rfl⟩⟩

theorem clockspec_roundtrip_witness :
    ClockSpec.toValue (.UnixTimestamp 1700000000) = .integer 1700000000
  ∧ decodeClockSpec (ClockSpec.toValue (.UnixTimestamp 1700000000))
      = some (.UnixTimestamp 1700000000) :=
  clockspec_roundtrip.2 1700000000 (by decide) (by decide)

/-- C9: a present `TriggerRequest` stdin policy serializes `DevNull` to
the literal string "/dev/null", `FieldNames ns` to the sequence of the
strings of `ns` in order, and `NamePerLine` to the literal string
"NAME_PER_LINE". -/
theorem trigger_stdin_encoding :
    TriggerStdinConfig.serialize (some .DevNull) = .utf8String "/dev/null"
  ∧ (∀ ns, TriggerStdinConfig.serialize (some (.FieldNames ns))
      = .array (ns.map .utf8String))
  ∧ TriggerStdinConfig.serialize (some .NamePerLine)
      = .utf8String "NAME_PER_LINE" :=
  ⟨rfl, fun _ => rfl, rfl⟩

/-- C10: converting a `std::time::Duration` yields `DisableCookie` for
every duration whose whole-millisecond count is zero (including nonzero
sub-millisecond durations), and yields `Duration d` for every duration of
at least one whole millisecond. -/
theorem sync_timeout_of_duration (d : Duration) :
    (d.as_millis = 0 → SyncTimeout.ofDuration d = .DisableCookie)
  ∧ (1 ≤ d.as_millis → SyncTimeout.ofDuration d = .Duration d) := by
  constructor
  · intro h
    simp [SyncTimeout.ofDuration, h]
  · intro h
    have hne : d.as_millis ≠ 0 := by omega
    simp [SyncTimeout.ofDuration, hne]

theorem sync_timeout_of_duration_witness :
    SyncTimeout.ofDuration ⟨0, 500000⟩ = .DisableCookie
  ∧ SyncTimeout.ofDuration ⟨0, 1500000⟩ = .Duration ⟨0, 1500000⟩ :=
  ⟨(sync_timeout_of_duration _).1 (by decide),
   (sync_timeout_of_duration _).2 (by decide)⟩

end Watchman
